import Mathlib

/-!
# Verification of the skillz repository extensions

A shallow embedding, in Lean 4, of the pi extensions of the skillz
repository: the SQLite session recorder (`recorder.ts`), the Kagi search
client (`kagi-search.ts`), the jina fetch tool and the pexpect session
proxy (`jina.ts`), the GitHub code-search tool (`github-search.ts`) and
the ast-grep tool (`ast-grep.ts`).  Pure computations are translated as
Lean functions; the event-driven recorder is translated as a step
function on an explicit state; effectful operations (HTTP, subprocess)
are functions of an explicit outcome value describing what the external
world did.  JavaScript strings are modelled as Lean `String` / `List
Char`, JS numbers for token counts and timestamps as `Nat`/`Int`, and the
floating-point cost accumulators as `ℚ` (addition happens in the same
order on both sides of every statement proved here, so exact arithmetic
captures the equalities at issue).
-/

namespace Skillz

/-! ## Shared helpers modelling JavaScript string primitives -/

/-- JavaScript `s.split(sep)` for a single-character separator,
on the character list of the string.  `"".split(";") = [""]`. -/
def splitOnChar (sep : Char) : List Char → List (List Char)
  | [] => [[]]
  | c :: rest =>
    let r := splitOnChar sep rest
    if c = sep then [] :: r
    else
      match r with
      | h :: t => (c :: h) :: t
      | [] => [[c]]

/-- JavaScript whitespace test (approximated by Lean's `Char.isWhitespace`). -/
def jsWhite (c : Char) : Bool := c.isWhitespace

/-- JavaScript `s.trim()` on a character list. -/
def trimChars (cs : List Char) : List Char :=
  ((cs.dropWhile jsWhite).reverse.dropWhile jsWhite).reverse

/-- JavaScript `s.trim()`. -/
def jsTrim (s : String) : String := String.mk (trimChars s.data)

/-- JavaScript `s.trimEnd()`. -/
def jsTrimEnd (s : String) : String :=
  String.mk (s.data.reverse.dropWhile jsWhite).reverse

/-- Boolean list-prefix test. -/
def isPrefixOfB : List Char → List Char → Bool
  | [], _ => true
  | _ :: _, [] => false
  | a :: as, b :: bs => a == b && isPrefixOfB as bs

/-- Boolean list-infix test. -/
def isInfixOfB (needle : List Char) : List Char → Bool
  | [] => isPrefixOfB needle []
  | c :: rest => isPrefixOfB needle (c :: rest) || isInfixOfB needle rest

/-- JavaScript `haystack.includes(needle)`. -/
def jsIncludes (haystack needle : String) : Bool :=
  isInfixOfB needle.data haystack.data

/-! ## Recorder (`src/pi/extensions/recorder/recorder.ts`)

The five tables of the schema become five lists of row structures; the
`AUTOINCREMENT` id of `turns` becomes an explicit counter
`nextTurnRowId`.  The module-level mutable variables `db`
(open/closed), `state.sessionId`, `state.currentTurnId`,
`state.currentTurnStartedAt` and `state.toolCallStarts` become the
fields of `RecorderState`.  JS truthiness tests on `state.sessionId`
(a string) and `state.currentTurnId` (a number) are translated as the
`activeSession` / `currentTurn` views below. -/

namespace Recorder

/-- `const MAX_RESULT_SIZE = 50 * 1024`. -/
def MAX_RESULT_SIZE : Nat := 50 * 1024

/-- The fixed truncation marker appended by the recorder. -/
def truncationMarker : List Char := "\n... [truncated at 50KB]".data

/-- The truncation step shared by `extractTextContent` and the `input`
handler: `if (result.length > MAX_RESULT_SIZE) result =
result.substring(0, MAX_RESULT_SIZE) + "\n... [truncated at 50KB]"`. -/
def truncateContent (s : List Char) : List Char :=
  if s.length > MAX_RESULT_SIZE then s.take MAX_RESULT_SIZE ++ truncationMarker else s

/-- One element of a message / tool-result `content` array. -/
structure ContentItem where
  type : String
  text : Option (List Char)
deriving Repr, DecidableEq

/-- `item.type === "text" && item.text` (JS truthiness: a present,
non-empty string). -/
def textOfItem (i : ContentItem) : Option (List Char) :=
  if i.type == "text" then
    match i.text with
    | some t => if t.isEmpty then none else some t
    | none => none
  else none

/-- `extractTextContent`: collect the text items, join with `"\n"`,
truncate at the 50KB cap. -/
def extractTextContent (content : List ContentItem) : List Char :=
  truncateContent (List.intercalate ['\n'] (content.filterMap textOfItem))

/-- A row of the `sessions` table. -/
structure SessionRow where
  id : String
  sessionFile : Option String
  cwd : String
  startedAt : Nat
  endedAt : Option Nat
  modelProvider : Option String
  modelId : Option String
  totalInputTokens : Nat
  totalOutputTokens : Nat
  totalCost : ℚ
deriving Repr, DecidableEq

/-- A row of the `turns` table. -/
structure TurnRow where
  id : Nat
  sessionId : String
  turnIndex : Nat
  startedAt : Nat
  endedAt : Option Nat
  durationMs : Option Int
  modelProvider : Option String
  modelId : Option String
  inputTokens : Nat
  outputTokens : Nat
  cost : ℚ
  stopReason : Option String
deriving Repr, DecidableEq

/-- A row of the `tool_calls` table. -/
structure ToolCallRow where
  id : String
  sessionId : String
  turnId : Option Nat
  toolName : String
  inputJson : String
  startedAt : Nat
  endedAt : Option Nat
  durationMs : Option Int
  isError : Bool
  resultText : Option (List Char)
deriving Repr, DecidableEq

/-- A row of the `messages` table. -/
structure MessageRow where
  sessionId : String
  role : String
  content : List Char
  turnId : Option Nat
  timestamp : Nat
deriving Repr, DecidableEq

/-- A row of the `model_changes` table. -/
structure ModelChangeRow where
  sessionId : String
  timestamp : Nat
  fromProvider : Option String
  fromModelId : Option String
  toProvider : String
  toModelId : String
deriving Repr, DecidableEq

/-- The embedded SQLite database. -/
structure Db where
  sessions : List SessionRow
  turns : List TurnRow
  toolCalls : List ToolCallRow
  messages : List MessageRow
  modelChanges : List ModelChangeRow
  /-- The next `AUTOINCREMENT` rowid of the `turns` table (SQLite rowids
  start at 1 on a fresh table). -/
  nextTurnRowId : Nat
deriving Repr, DecidableEq

/-- A freshly created database file. -/
def Db.empty : Db := ⟨[], [], [], [], [], 1⟩

/-- The recorder's module-level mutable state. -/
structure RecorderState where
  db : Db
  /-- `db !== null`; session_start opens the store, session_shutdown
  closes it (the persisted file content survives in `db`). -/
  dbOpen : Bool
  sessionId : Option String
  currentTurnId : Option Nat
  currentTurnStartedAt : Nat
  /-- `state.toolCallStarts : Map<string, number>` as an assoc list. -/
  toolCallStarts : List (String × Nat)
deriving Repr, DecidableEq

/-- The process state before any event. -/
def initState (db : Db) : RecorderState :=
  { db := db, dbOpen := false, sessionId := none, currentTurnId := none,
    currentTurnStartedAt := 0, toolCallStarts := [] }

/-- The guard `if (!db || !state.sessionId) return` of every handler
except session_start: the session id, when the store is open and the id
is a truthy (non-empty) string. -/
def activeSession (st : RecorderState) : Option String :=
  if st.dbOpen then
    match st.sessionId with
    | some sid => if sid == "" then none else some sid
    | none => none
  else none

/-- The extra guard `!state.currentTurnId` of the turn_end handler
(`0` is falsy in JS). -/
def currentTurn (st : RecorderState) : Option Nat :=
  match st.currentTurnId with
  | some t => if t == 0 then none else some t
  | none => none

/-- `INSERT OR REPLACE INTO sessions`: SQLite deletes every row that
conflicts on the primary key, then inserts the new row. -/
def insertOrReplaceSession (db : Db) (r : SessionRow) : Db :=
  { db with sessions := db.sessions.filter (fun s => s.id != r.id) ++ [r] }

/-- `JS Map.set`: overwrite the entry of an existing key, else append. -/
def mapSet (m : List (String × Nat)) (k : String) (v : Nat) : List (String × Nat) :=
  if m.any (fun p => p.1 == k) then
    m.map (fun p => if p.1 == k then (k, v) else p)
  else m ++ [(k, v)]

/-- The nested-optional usage payload `msg.usage?.{input,output,cost?.total}`. -/
structure CostObj where
  total : Option ℚ
deriving Repr, DecidableEq

/-- The `usage` object of an assistant message. -/
structure Usage where
  input : Option Nat
  output : Option Nat
  cost : Option CostObj
deriving Repr, DecidableEq

/-- The assistant message carried by a turn_end event. -/
structure AssistantMsg where
  provider : Option String
  model : Option String
  content : Option (List ContentItem)
  usage : Option Usage
  stopReason : Option String
deriving Repr, DecidableEq

/-- The recorder events, with the data each handler reads.  `Date.now()`
calls become explicit `now` fields. -/
inductive Event where
  | sessionStart (sessionId : String) (sessionFile : Option String) (cwd : String)
      (modelProvider modelId : Option String) (now : Nat)
  | input (text : List Char) (now : Nat)
  | sessionShutdown (now : Nat)
  | turnStart (turnIndex : Nat) (timestamp : Nat)
  | turnEnd (msg : AssistantMsg) (now : Nat)
  | toolCall (toolCallId : String) (toolName : String) (inputJson : String) (now : Nat)
  | toolResult (toolCallId : String) (isError : Bool) (content : List ContentItem) (now : Nat)
  | modelSelect (fromProvider fromModelId : Option String)
      (toProvider toModelId : String) (now : Nat)
deriving Repr, DecidableEq

/-- The session_start handler: open the store, reset the correlation
state, upsert the session row (the total columns take their schema
defaults `0`). -/
def handleSessionStart (st : RecorderState) (sid : String) (file : Option String)
    (cwd : String) (mp mi : Option String) (now : Nat) : RecorderState :=
  let st := { st with dbOpen := true, sessionId := some sid, currentTurnId := none,
                      toolCallStarts := [] }
  let row : SessionRow :=
    { id := sid, sessionFile := file, cwd := cwd, startedAt := now, endedAt := none,
      modelProvider := mp, modelId := mi,
      totalInputTokens := 0, totalOutputTokens := 0, totalCost := 0 }
  { st with db := insertOrReplaceSession st.db row }

/-- The input handler: truncate the text, append a `user` message row. -/
def handleInput (st : RecorderState) (text : List Char) (now : Nat) : RecorderState :=
  match activeSession st with
  | some sid =>
    { st with db := { st.db with messages := st.db.messages ++
        [{ sessionId := sid, role := "user", content := truncateContent text,
           turnId := none, timestamp := now }] } }
  | none => st

/-- The session_shutdown handler: set the end timestamp, close the
store, clear the session id. -/
def handleSessionShutdown (st : RecorderState) (now : Nat) : RecorderState :=
  match activeSession st with
  | some sid =>
    { st with
      db := { st.db with sessions := st.db.sessions.map (fun r =>
                if r.id == sid then { r with endedAt := some now } else r) },
      dbOpen := false, sessionId := none }
  | none => st

/-- The turn_start handler: remember the start timestamp, insert an open
turn row (usage columns at their schema defaults), remember
`last_insert_rowid()` as the current turn. -/
def handleTurnStart (st : RecorderState) (turnIndex ts : Nat) : RecorderState :=
  match activeSession st with
  | some sid =>
    let rowId := st.db.nextTurnRowId
    { st with
      currentTurnStartedAt := ts,
      currentTurnId := some rowId,
      db := { st.db with
        turns := st.db.turns ++
          [{ id := rowId, sessionId := sid, turnIndex := turnIndex, startedAt := ts,
             endedAt := none, durationMs := none, modelProvider := none, modelId := none,
             inputTokens := 0, outputTokens := 0, cost := 0, stopReason := none }],
        nextTurnRowId := rowId + 1 } }
  | none => st

/-- `UPDATE turns SET ended_at = ?, duration_ms = ?, ... WHERE id = ?`. -/
def updateTurnEnd (db : Db) (tid : Nat) (endedAt : Nat) (durationMs : Int)
    (mp mi : Option String) (it ot : Nat) (c : ℚ) (sr : Option String) : Db :=
  { db with turns := db.turns.map (fun t =>
      if t.id == tid then
        { t with endedAt := some endedAt, durationMs := some durationMs,
                 modelProvider := mp, modelId := mi,
                 inputTokens := it, outputTokens := ot, cost := c, stopReason := sr }
      else t) }

/-- `UPDATE sessions SET total_* = total_* + ? WHERE id = ?`. -/
def addSessionTotals (db : Db) (sid : String) (it ot : Nat) (c : ℚ) : Db :=
  { db with sessions := db.sessions.map (fun r =>
      if r.id == sid then
        { r with totalInputTokens := r.totalInputTokens + it,
                 totalOutputTokens := r.totalOutputTokens + ot,
                 totalCost := r.totalCost + c }
      else r) }

/-- The turn_end handler: close the current turn row, add its usage to
the session totals, and append the assistant message when it has text. -/
def handleTurnEnd (st : RecorderState) (msg : AssistantMsg) (now : Nat) : RecorderState :=
  match activeSession st, currentTurn st with
  | some sid, some tid =>
    let durationMs : Int := (now : Int) - (st.currentTurnStartedAt : Int)
    let inputTokens := (msg.usage.bind Usage.input).getD 0
    let outputTokens := (msg.usage.bind Usage.output).getD 0
    let cost := ((msg.usage.bind Usage.cost).bind CostObj.total).getD 0
    let db1 := updateTurnEnd st.db tid now durationMs msg.provider msg.model
                 inputTokens outputTokens cost msg.stopReason
    let db2 := addSessionTotals db1 sid inputTokens outputTokens cost
    let db3 :=
      match msg.content with
      | some content =>
        let assistantText := extractTextContent content
        if assistantText.isEmpty then db2
        else { db2 with messages := db2.messages ++
          [{ sessionId := sid, role := "assistant", content := assistantText,
             turnId := some tid, timestamp := now }] }
      | none => db2
    { st with db := db3 }
  | _, _ => st

/-- The tool_call handler: remember the start time, insert an open
tool-call row.  `id` is a `TEXT PRIMARY KEY` and the statement is a
plain `INSERT`, so a conflicting id makes the statement fail and
`safeRun` swallows the error: no row is inserted. -/
def handleToolCall (st : RecorderState) (cid name inputJson : String) (now : Nat) :
    RecorderState :=
  match activeSession st with
  | some sid =>
    let starts := mapSet st.toolCallStarts cid now
    let db :=
      if st.db.toolCalls.any (fun t => t.id == cid) then st.db
      else { st.db with toolCalls := st.db.toolCalls ++
        [{ id := cid, sessionId := sid, turnId := st.currentTurnId, toolName := name,
           inputJson := inputJson, startedAt := now, endedAt := none, durationMs := none,
           isError := false, resultText := none }] }
    { st with toolCallStarts := starts, db := db }
  | none => st

/-- The tool_result handler: take (and delete) the remembered start time
(falling back to `now`), close the tool-call row. -/
def handleToolResult (st : RecorderState) (cid : String) (isErr : Bool)
    (content : List ContentItem) (now : Nat) : RecorderState :=
  match activeSession st with
  | some _ =>
    let startedAt := (st.toolCallStarts.lookup cid).getD now
    let durationMs : Int := (now : Int) - (startedAt : Int)
    let starts := st.toolCallStarts.filter (fun p => p.1 != cid)
    let resultText := extractTextContent content
    { st with
      toolCallStarts := starts,
      db := { st.db with toolCalls := st.db.toolCalls.map (fun t =>
        if t.id == cid then
          { t with endedAt := some now, durationMs := some durationMs,
                   isError := isErr, resultText := some resultText }
        else t) } }
  | none => st

/-- The model_select handler: append an audit row. -/
def handleModelSelect (st : RecorderState) (fp fm : Option String) (tp tm : String)
    (now : Nat) : RecorderState :=
  match activeSession st with
  | some sid =>
    { st with db := { st.db with modelChanges := st.db.modelChanges ++
        [{ sessionId := sid, timestamp := now, fromProvider := fp, fromModelId := fm,
           toProvider := tp, toModelId := tm }] } }
  | none => st

/-- Dispatch one event to its handler. -/
def processEvent (st : RecorderState) : Event → RecorderState
  | .sessionStart sid file cwd mp mi now => handleSessionStart st sid file cwd mp mi now
  | .input text now => handleInput st text now
  | .sessionShutdown now => handleSessionShutdown st now
  | .turnStart ti ts => handleTurnStart st ti ts
  | .turnEnd msg now => handleTurnEnd st msg now
  | .toolCall cid name ij now => handleToolCall st cid name ij now
  | .toolResult cid isErr content now => handleToolResult st cid isErr content now
  | .modelSelect fp fm tp tm now => handleModelSelect st fp fm tp tm now

/-- Process a sequence of events in order. -/
def processEvents (st : RecorderState) (evs : List Event) : RecorderState :=
  evs.foldl processEvent st

/-- Sum of the `input_tokens` column over a list of turn rows. -/
def sumInput (ts : List TurnRow) : Nat := (ts.map TurnRow.inputTokens).sum

/-- Sum of the `output_tokens` column over a list of turn rows. -/
def sumOutput (ts : List TurnRow) : Nat := (ts.map TurnRow.outputTokens).sum

/-- Sum of the `cost` column over a list of turn rows. -/
def sumCost (ts : List TurnRow) : ℚ := (ts.map TurnRow.cost).sum

/-- The tool-call correlation events (a tool-call start or end). -/
inductive ToolEv : Event → Prop where
  | call (cid name ij : String) (now : Nat) : ToolEv (.toolCall cid name ij now)
  | result (cid : String) (isErr : Bool) (content : List ContentItem) (now : Nat) :
      ToolEv (.toolResult cid isErr content now)

/-- Event sequences made of `n` completed turn start/end pairs with
tool-call start/end events interleaved anywhere (between turns and
inside a turn). -/
inductive TurnToolSeq : List Event → Nat → Prop where
  | nil : TurnToolSeq [] 0
  | tool (e : Event) (evs : List Event) (n : Nat) :
      ToolEv e → TurnToolSeq evs n → TurnToolSeq (e :: evs) n
  | turn (ti ts : Nat) (msg : AssistantMsg) (now : Nat) (mid evs : List Event) (n : Nat) :
      (∀ e ∈ mid, ToolEv e) → TurnToolSeq evs n →
      TurnToolSeq (.turnStart ti ts :: (mid ++ .turnEnd msg now :: evs)) (n + 1)

/-- The running invariant tying the single open session row to the
turn rows: store open, session `S` current, exactly one session row,
its totals equal to the column sums over the turn rows, and all turn
rowids below the autoincrement counter. -/
def Inv (S : String) (k : Nat) (st : RecorderState) : Prop :=
  st.dbOpen = true ∧ st.sessionId = some S ∧ S ≠ "" ∧
  st.db.turns.length = k ∧
  (∀ t ∈ st.db.turns, t.id < st.db.nextTurnRowId) ∧
  1 ≤ st.db.nextTurnRowId ∧
  ∃ r : SessionRow, st.db.sessions = [r] ∧ r.id = S ∧
    r.totalInputTokens = sumInput st.db.turns ∧
    r.totalOutputTokens = sumOutput st.db.turns ∧
    r.totalCost = sumCost st.db.turns

end Recorder

/-! ## Tool results

Every extension tool returns `{ content: [{type:"text", text}], isError? }`.
We model the result as the list of its text payloads plus the error flag,
and a tool's `execute` as a function into `Except String ToolResult`:
`.ok` is a value returned across the public execute boundary, `.error`
is an exception propagating uncaught out of it. -/

structure ToolResult where
  content : List String
  isError : Bool
deriving Repr, DecidableEq

/-! ## Kagi search client (`src/pi/extensions/kagi-search/kagi-search.ts`) -/

namespace Kagi

/-- A parsed search result. -/
structure SearchResult where
  title : String
  url : String
  snippet : String
deriving Repr, DecidableEq

/-- A quick-answer reference triple. -/
structure QuickRef where
  title : String
  url : String
  contribution : String
deriving Repr, DecidableEq

/-- A quick answer. -/
structure QuickAnswer where
  markdown : String
  references : List QuickRef
deriving Repr, DecidableEq

/-- The mutable fields of `KagiClient` (the user agent is a constant). -/
structure KagiClient where
  cookies : List String
  sessionCookie : String
deriving Repr, DecidableEq

/-- A fresh client: `cookies = []`, `sessionCookie = ""`. -/
def KagiClient.init : KagiClient := ⟨[], ""⟩

/-- What the authenticate response exposes: status, the `set-cookie`
headers in order, and the `location` header. -/
structure AuthResponse where
  status : Nat
  setCookies : List String
  location : Option String
deriving Repr, DecidableEq

/-- `setCookies.map((c) => c.split(";")[0])`. -/
def captureCookies (setCookies : List String) : List String :=
  setCookies.map (fun c => String.mk ((splitOnChar ';' c.data).headD []))

/-- `cookie.split("=")[1]`: the second segment, `""` when absent
(JS would yield `undefined`, but a match of `startsWith "kagi_session="`
guarantees a second segment exists). -/
def secondEqSegment (cookie : String) : String :=
  String.mk (((splitOnChar '=' cookie.data)).getD 1 [])

/-- `c.startsWith("kagi_session=")`. -/
def isSessionCookie (c : String) : Bool :=
  isPrefixOfB "kagi_session=".data c.data

/-- `KagiClient.authenticate(token)`: capture the cookies, extract the
`kagi_session` cookie value, and fail when a redirect points at a
sign-in/welcome page.  (In the source the cookie fields are mutated
before the throw; the caller discards the client on error, so the
error branch carries no state.) -/
def authenticate (cl : KagiClient) (resp : AuthResponse) : Except String KagiClient :=
  let cookies := captureCookies resp.setCookies
  let sessionCookie :=
    match cookies.find? isSessionCookie with
    | some c => secondEqSegment c
    | none => cl.sessionCookie
  let cl' : KagiClient := { cookies := cookies, sessionCookie := sessionCookie }
  if 300 ≤ resp.status && resp.status < 400 then
    match resp.location with
    | some loc =>
      if jsIncludes loc "/signin" || jsIncludes loc "/welcome" then
        .error "Authentication failed"
      else .ok cl'
    | none => .ok cl'
  else .ok cl'

/-- The headers of the search request issued by `KagiClient.search`
(the URL's `encodeURIComponent` query serialization is kept as the raw
query: it does not interact with any claim). -/
structure SearchRequest where
  query : String
  cookie : String
  accept : String
deriving Repr, DecidableEq

/-- The request `search` sends: `Cookie: this.cookies.join("; ")`. -/
def searchRequest (cl : KagiClient) (query : String) : SearchRequest :=
  { query := query, cookie := String.intercalate "; " cl.cookies, accept := "text/html" }

/-- Remove the matches of `/<[^>]*>/g`: find the `'>'` closing a tag. -/
def dropThroughGt : List Char → Option (List Char)
  | [] => none
  | c :: rest => if c = '>' then some rest else dropThroughGt rest

/-- `s.replace(/<[^>]*>/g, "")`: a `<` with a later `>` is removed with
everything between; a `<` never closed matches nothing and stays. -/
def removeTags (cs : List Char) : List Char :=
  match cs with
  | [] => []
  | c :: rest =>
    if c = '<' then
      match h : dropThroughGt rest with
      | some rest' => removeTags rest'
      | none => '<' :: removeTags rest
    else c :: removeTags rest
termination_by cs.length
decreasing_by
  · simp
    have key : ∀ (l : List Char) (l' : List Char),
        dropThroughGt l = some l' → l'.length < l.length := by
      intro l
      induction l with
      | nil => intro l' h'; simp [dropThroughGt] at h'
      | cons a as ih =>
        intro l' h'
        by_cases ha : a = '>'
        · simp [dropThroughGt, ha] at h'
          subst h'
          simp
        · simp [dropThroughGt, ha] at h'
          exact Nat.lt_trans (ih l' h') (Nat.lt_succ_self _)
    exact Nat.lt_succ_of_lt (key rest rest' h)
  · simp
  · simp

/-- `.replace(/<[^>]*>/g, "").trim()` as applied to titles and snippets. -/
def stripTagsTrim (s : String) : String := String.mk (trimChars (removeTags s.data))

/-- One `search-result` block of the results page, represented by the
outcomes of the three sub-pattern matches inside the block: the
captured group of `titlePattern`, `urlPattern` and `snippetPattern`,
or `none` when the sub-pattern does not match. -/
structure Block where
  title : Option String
  url : Option String
  snippet : Option String
deriving Repr, DecidableEq

/-- The body of the result loop: `if (titleMatch && urlMatch)` push a
result whose snippet falls back to `""`. -/
def blockStep (b : Block) : Option SearchResult :=
  match b.title, b.url with
  | some t, some u =>
    some { title := stripTagsTrim t, url := u,
           snippet := match b.snippet with
                      | some sn => stripTagsTrim sn
                      | none => "" }
  | _, _ => none

/-- The result loop: `while (match != null && results.length < limit)`. -/
def searchLoop (limit : Nat) : List Block → List SearchResult → List SearchResult
  | [], acc => acc
  | b :: rest, acc =>
    if acc.length < limit then
      match blockStep b with
      | some r => searchLoop limit rest (acc ++ [r])
      | none => searchLoop limit rest acc
    else acc

/-- `KagiClient.search`'s result extraction over the blocks the
result pattern finds in the response HTML. -/
def parseResults (blocks : List Block) (limit : Nat) : List SearchResult :=
  searchLoop limit blocks []

/-- What the world did during a `kagi_search` execute: either some
awaited step threw (`ensureClient`, `search`, the response body read —
`getQuickAnswer` catches its own errors and returns `null`), or both
awaited calls completed. -/
inductive KagiOutcome where
  | thrown (msg : String)
  | succeeded (results : List SearchResult) (quickAnswer : Option QuickAnswer)
deriving Repr, DecidableEq

/-- The markdown written for one quick-answer reference. -/
def refLine (r : QuickRef) : String :=
  "- [" ++ r.title ++ "](" ++ r.url ++ ") (" ++ r.contribution ++ ")\n"

/-- The markdown written for one indexed search result. -/
def resultLine (i : Nat) (r : SearchResult) : String :=
  toString (i + 1) ++ ". **[" ++ r.title ++ "](" ++ r.url ++ ")**\n" ++
    (if r.snippet != "" then "   " ++ r.snippet ++ "\n" else "") ++ "\n"

/-- The output assembly of the `kagi_search` execute body. -/
def formatSearchOutput (quickAnswer : Option QuickAnswer) (results : List SearchResult) :
    String :=
  let output := ""
  let output :=
    match quickAnswer with
    | some qa =>
      let o := output ++ "## Quick Answer\n\n" ++ qa.markdown ++ "\n\n"
      if qa.references.length > 0 then
        o ++ "### References\n" ++ String.join (qa.references.map refLine) ++ "\n"
      else o
    | none => output
  let output := output ++ "## Search Results\n\n"
  output ++ String.join (results.enum.map (fun p => resultLine p.1 p.2))

/-- The `kagi_search` execute: the whole body sits in a `try` whose
`catch` returns an error result, so every outcome yields `.ok`. -/
def kagiSearchExecute (o : KagiOutcome) : Except String ToolResult :=
  match o with
  | .thrown msg => .ok { content := ["Kagi search failed: " ++ msg], isError := true }
  | .succeeded results qa =>
    .ok { content := [formatSearchOutput qa results], isError := false }

end Kagi

/-! ## jina fetch tool (`src/pi/extensions/jina/jina.ts`, `fetch_url`) -/

namespace Jina

/-- What the single `fetch` (plus body read) did: a completed HTTP
response, or a network-level rejection (DNS failure, refused
connection, invalid URL, abort). -/
inductive FetchOutcome where
  | success (status : Nat) (statusText : String) (body : String)
  | networkError (msg : String)
deriving Repr, DecidableEq

/-- `Response.ok`: status in the inclusive range 200–299. -/
def responseOk (status : Nat) : Bool := 200 ≤ status && status ≤ 299

/-- The `fetch_url` execute.  It has no try/catch: a rejection of
`fetch` (or of `response.text()`) propagates uncaught out of the
async execute, modelled as `.error`. -/
def fetchUrlExecute (o : FetchOutcome) : Except String ToolResult :=
  match o with
  | .networkError msg => .error msg
  | .success st stx body =>
    if !responseOk st then
      .ok { content := ["Failed to fetch: " ++ toString st ++ " " ++ stx],
            isError := true }
    else
      .ok { content := [body], isError := false }

end Jina

/-! ## pexpect session proxy (`src/pi/extensions/jina/jina.ts`, pexpect tools) -/

namespace Pexpect

instance {ε α : Type} [DecidableEq ε] [DecidableEq α] : DecidableEq (Except ε α) := fun
  | .ok a, .ok b =>
    if h : a = b then .isTrue (by rw [h]) else .isFalse (by simp [h])
  | .error a, .error b =>
    if h : a = b then .isTrue (by rw [h]) else .isFalse (by simp [h])
  | .ok _, .error _ => .isFalse (by simp)
  | .error _, .ok _ => .isFalse (by simp)

/-- A session descriptor parsed from `pexpect-cli --list`. -/
structure Session where
  id : String
  status : String
  name : Option String
deriving Repr, DecidableEq

/-- `[a-f0-9]` with the `/i` flag. -/
def hexChar (c : Char) : Bool :=
  c.isDigit || ('a' ≤ c && c ≤ 'f') || ('A' ≤ c && c ≤ 'F')

/-- `\w`. -/
def wordChar (c : Char) : Bool := c.isAlphanum || c = '_'

/-- The optional `(?:\s*\(([^)]+)\))?` group after the status word. -/
def parseOptionalName (cs : List Char) : Option String :=
  match cs.dropWhile jsWhite with
  | '(' :: r1 =>
    let nm := r1.takeWhile (fun c => c ≠ ')')
    match r1.dropWhile (fun c => c ≠ ')') with
    | ')' :: _ => if nm.isEmpty then none else some (String.mk nm)
    | _ => none
  | _ => none

/-- One line matched against `/^([a-f0-9]+):\s*(\w+)(?:\s*\(([^)]+)\))?/i`:
greedy hex id, a colon, optional whitespace, a status word, an optional
parenthesized name; trailing text is ignored. -/
def parseSessionLine (line : String) : Option Session :=
  let cs := line.data
  let idPart := cs.takeWhile hexChar
  if idPart.isEmpty then none
  else
    match cs.dropWhile hexChar with
    | ':' :: rest1 =>
      let rest2 := rest1.dropWhile jsWhite
      let status := rest2.takeWhile wordChar
      if status.isEmpty then none
      else
        some { id := String.mk idPart, status := String.mk status,
               name := parseOptionalName (rest2.dropWhile wordChar) }
    | _ => none

/-- `parseSessionList`: trim the output, split on newlines, skip blank
lines, silently skip lines the pattern rejects. -/
def parseSessionList (output : String) : List Session :=
  let lines := (splitOnChar '\n' (jsTrim output).data).map String.mk
  lines.filterMap (fun line =>
    if jsTrim line = "" then none else parseSessionLine line)

/-- What the spawned `pexpect-cli <sessionId>` subprocess did, with the
time (ms after spawn) at which its `close` event would fire. -/
structure ChildRun where
  closeTime : Nat
  exitCode : Int
  stdout : String
  stderr : String
deriving Repr, DecidableEq

/-- The observable effects of one `execInSession` call: the settled
promise, and whether `child.kill("SIGTERM")` was issued. -/
structure ExecEffects where
  result : Except String String
  killedChild : Bool
deriving Repr, DecidableEq

/-- The `close` branch: `code !== 0 && stderr` rejects with the captured
stderr, anything else resolves with the captured stdout. -/
def closeResult (run : ChildRun) : ExecEffects :=
  { result := if run.exitCode != 0 && run.stderr != "" then .error run.stderr
              else .ok run.stdout,
    killedChild := false }

/-- `execInSession(sessionId, code, timeout?)`.  The timer is armed
only under the source's `if (timeout)` truthiness guard, which is
falsy for an absent timeout and for `0`.  Timing is modelled
explicitly: an armed `setTimeout` callback fires iff the timeout
elapses strictly before the child's `close` event; it then kills the
child with SIGTERM (terminating it) and rejects with the timeout
message.  Otherwise the timer (if any) is cleared on `close` and the
close branch decides the result. -/
def execInSession (timeout : Option Nat) (run : ChildRun) : ExecEffects :=
  match timeout with
  | some t =>
    if t != 0 then
      if t < run.closeTime then
        { result := .error ("Execution timed out after " ++ toString t ++ "ms"),
          killedChild := true }
      else closeResult run
    else closeResult run
  | none => closeResult run

/-- What the world did during a `pexpect_start` execute. -/
inductive StartOutcome where
  /-- `ensurePueueRunning` threw (pueue daemon unreachable). -/
  | pueueDown
  /-- `runPexpectCli ["--start", ...]` threw with this message. -/
  | cliError (msg : String)
  /-- the CLI printed this session id. -/
  | started (sessionId : String)
deriving Repr, DecidableEq

/-- The message `ensurePueueRunning` throws. -/
def pueueDownMsg : String := "pueue daemon is not running. Start it with: pueued -d"

/-- The `pexpect_start` execute: the whole body sits in a try/catch. -/
def pexpectStartExecute (name : Option String) (o : StartOutcome) :
    Except String ToolResult :=
  match o with
  | .pueueDown =>
    .ok { content := ["Failed to start session: " ++ pueueDownMsg], isError := true }
  | .cliError msg =>
    .ok { content := ["Failed to start session: " ++ msg], isError := true }
  | .started sid =>
    let message :=
      match name with
      | some n => "Started session `" ++ sid ++ "` (" ++ n ++ ")"
      | none => "Started session `" ++ sid ++ "`"
    .ok { content := [message], isError := false }

/-- What the world did during a `pexpect_exec` execute. -/
inductive ExecOutcome where
  | pueueDown
  /-- `runPexpectCli ["--list"]` threw. -/
  | listError (msg : String)
  /-- the list succeeded with this output; when the session is found,
  `execInSession` settles as `execResult`. -/
  | listed (listOutput : String) (execResult : Except String String)
deriving Repr, DecidableEq

/-- The `pexpect_exec` execute: list-and-verify, then exec; the whole
body sits in a try/catch returning `Execution failed: ...`. -/
def pexpectExecExecute (sessionId : String) (o : ExecOutcome) :
    Except String ToolResult :=
  match o with
  | .pueueDown =>
    .ok { content := ["Execution failed: " ++ pueueDownMsg], isError := true }
  | .listError msg =>
    .ok { content := ["Execution failed: " ++ msg], isError := true }
  | .listed listOutput execResult =>
    match (parseSessionList listOutput).find? (fun s => s.id == sessionId) with
    | none =>
      .ok { content := ["Session `" ++ sessionId ++
              "` not found. Use pexpect_list to see active sessions."],
            isError := true }
    | some _ =>
      match execResult with
      | .error msg =>
        .ok { content := ["Execution failed: " ++ msg], isError := true }
      | .ok output =>
        let result := if jsTrim output = "" then "(no output)" else jsTrim output
        .ok { content := [result], isError := false }

/-- What the world did during a `pexpect_stop` execute. -/
inductive StopOutcome where
  | pueueDown
  | listError (msg : String)
  /-- the list succeeded; when the session is found, the
  `--stop` invocation settles as `stopResult`. -/
  | listed (listOutput : String) (stopResult : Except String String)
deriving Repr, DecidableEq

/-- The `pexpect_stop` execute. -/
def pexpectStopExecute (sessionId : String) (o : StopOutcome) :
    Except String ToolResult :=
  match o with
  | .pueueDown =>
    .ok { content := ["Failed to stop session: " ++ pueueDownMsg], isError := true }
  | .listError msg =>
    .ok { content := ["Failed to stop session: " ++ msg], isError := true }
  | .listed listOutput stopResult =>
    match (parseSessionList listOutput).find? (fun s => s.id == sessionId) with
    | none =>
      .ok { content := ["Session `" ++ sessionId ++ "` not found or already stopped."],
            isError := false }
    | some session =>
      match stopResult with
      | .error msg =>
        .ok { content := ["Failed to stop session: " ++ msg], isError := true }
      | .ok _ =>
        let message :=
          match session.name with
          | some n => "Stopped session `" ++ sessionId ++ "` (" ++ n ++ ")"
          | none => "Stopped session `" ++ sessionId ++ "`"
        .ok { content := [message], isError := false }

/-- What the world did during a `pexpect_list` execute. -/
inductive ListOutcome where
  | pueueDown
  | listError (msg : String)
  | listed (listOutput : String)
deriving Repr, DecidableEq

/-- The line written for one listed session. -/
def sessionLine (s : Session) : String :=
  match s.name with
  | some n => "- `" ++ s.id ++ "`: " ++ s.status ++ " (" ++ n ++ ")\n"
  | none => "- `" ++ s.id ++ "`: " ++ s.status ++ "\n"

/-- The `pexpect_list` execute. -/
def pexpectListExecute (o : ListOutcome) : Except String ToolResult :=
  match o with
  | .pueueDown =>
    .ok { content := ["Failed to list sessions: " ++ pueueDownMsg], isError := true }
  | .listError msg =>
    .ok { content := ["Failed to list sessions: " ++ msg], isError := true }
  | .listed listOutput =>
    let sessions := parseSessionList listOutput
    if sessions.isEmpty then
      .ok { content := ["No active pexpect sessions. Use pexpect_start to create one."],
            isError := false }
    else
      let output := "Active pexpect sessions:\n\n" ++
        String.join (sessions.map sessionLine)
      .ok { content := [jsTrim output], isError := false }

end Pexpect

/-! ## GitHub code search (`src/pi/extensions/github-search/github-search.ts`) -/

namespace Github

/-- A text match of a code-search result. -/
structure TextMatch where
  fragment : String
deriving Repr, DecidableEq

/-- The repository sub-object of a code-search result. -/
structure Repository where
  fullName : String
  name : String
  ownerLogin : String
deriving Repr, DecidableEq

/-- A code-search result as returned by `gh --json`. -/
structure CodeSearchResult where
  path : String
  repository : Repository
  sha : String
  url : String
  textMatches : List TextMatch
deriving Repr, DecidableEq

/-- The structured parameters of `github_search_code`.  The `limit`
parameter is a JS number, modelled as `Int`. -/
structure Params where
  query : String
  language : Option String
  owner : Option String
  repo : Option String
  extension : Option String
  filename : Option String
  limit : Option Int
deriving Repr, DecidableEq

/-- The argument vector built by the execute body, ending in
`--limit, String(Math.min(params.limit ?? 10, 100))`. -/
def buildGhArgs (p : Params) : List String :=
  let args : List String := [p.query]
  let args := match p.language with | some l => args ++ ["--language", l] | none => args
  let args := match p.owner with | some o => args ++ ["--owner", o] | none => args
  let args := match p.repo with | some r => args ++ ["--repo", r] | none => args
  let args := match p.extension with | some e => args ++ ["--extension", e] | none => args
  let args := match p.filename with | some f => args ++ ["--filename", f] | none => args
  let limit : Int := min (p.limit.getD 10) 100
  args ++ ["--limit", toString limit]

/-- The full argv of the spawned `gh` subprocess
(`spawn("gh", ["search", "code", ...args, "--json", ...])`). -/
def ghSpawnArgs (p : Params) : List String :=
  ["search", "code"] ++ buildGhArgs p ++ ["--json", "path,repository,sha,url,textMatches"]

/-- What the spawned `gh` subprocess did. -/
inductive GhOutcome where
  /-- the `error` event fired with this message (e.g. `spawn gh ENOENT`). -/
  | spawnError (msg : String)
  /-- the process closed; `parsed` is `JSON.parse(stdout)` when stdout
  parses as a result list, `none` when parsing throws. -/
  | exit (code : Int) (stdout stderr : String) (parsed : Option (List CodeSearchResult))
deriving Repr, DecidableEq

/-- `runGhSearch`: reject on a non-zero exit (stderr, or a generic
message when stderr is empty), reject on unparseable stdout, resolve
with the parsed results otherwise. -/
def runGhSearch (o : GhOutcome) : Except String (List CodeSearchResult) :=
  match o with
  | .spawnError msg => .error msg
  | .exit code stdout stderr parsed =>
    if code != 0 then
      .error (if stderr != "" then stderr else "gh exited with code " ++ toString code)
    else
      match parsed with
      | some results => .ok results
      | none => .error ("Failed to parse gh output: " ++ stdout)

/-- The fragment clean-up: split lines, trim each, drop empties, rejoin. -/
def cleanFragment (fragment : String) : String :=
  String.intercalate "\n"
    (((splitOnChar '\n' fragment.data).map (fun l => jsTrim (String.mk l))).filter
      (fun l => l != ""))

/-- The markdown block written for one text match. -/
def matchBlock (m : TextMatch) : String :=
  let fragment := cleanFragment m.fragment
  if fragment != "" then "```\n" ++ fragment ++ "\n```\n" else ""

/-- The markdown section written for one indexed result. -/
def resultSection (i : Nat) (r : CodeSearchResult) : String :=
  "### " ++ toString (i + 1) ++ ". " ++ r.repository.fullName ++ "/" ++ r.path ++ "\n" ++
  "**URL:** " ++ r.url ++ "\n" ++
  (if r.textMatches.length > 0 then
     "**Matches:**\n" ++ String.join (r.textMatches.map matchBlock)
   else "") ++ "\n"

/-- `formatResults`. -/
def formatResults (results : List CodeSearchResult) : String :=
  if results.length = 0 then "No results found."
  else
    jsTrim ("Found " ++ toString results.length ++ " result(s):\n\n" ++
      String.join (results.enum.map (fun p => resultSection p.1 p.2)))

/-- The `github_search_code` execute: the whole body sits in a
try/catch that special-cases missing-binary and unauthenticated
messages and otherwise wraps the message; every outcome yields `.ok`. -/
def githubSearchExecute (p : Params) (o : GhOutcome) : Except String ToolResult :=
  match runGhSearch o with
  | .ok results =>
    .ok { content := [formatResults results], isError := false }
  | .error msg =>
    if jsIncludes msg "gh: command not found" || jsIncludes msg "ENOENT" then
      .ok { content := ["GitHub CLI (gh) is not installed or not in PATH. Install it from https://cli.github.com/"],
            isError := true }
    else if jsIncludes msg "not logged in" || jsIncludes msg "auth login" then
      .ok { content := ["Not authenticated with GitHub. Run `gh auth login` to authenticate."],
            isError := true }
    else
      .ok { content := ["GitHub search failed: " ++ msg], isError := true }

end Github

/-! ## ast-grep search (`src/pi/extensions/ast-grep/ast-grep.ts`) -/

namespace AstGrep

/-- A source position. -/
structure Pos where
  line : Nat
  column : Nat
deriving Repr, DecidableEq

/-- An ast-grep match (`metaVariables` as its entry list in object
order). -/
structure AstGrepMatch where
  file : String
  startPos : Pos
  endPos : Pos
  lines : String
  text : String
  metaVariables : List (String × String)
deriving Repr, DecidableEq

/-- The parameters of `ast_grep`. -/
structure Params where
  pattern : String
  lang : Option String
  paths : Option (List String)
  globs : Option (List String)
  context : Option Bool
  limit : Option Nat
deriving Repr, DecidableEq

/-- What the spawned `ast-grep` subprocess did. -/
inductive AstGrepOutcome where
  /-- the `error` event fired with `err.code === "ENOENT"`. -/
  | spawnErrorEnoent
  /-- the `error` event fired with another error message. -/
  | spawnErrorOther (msg : String)
  /-- the process closed; `parsed` is `JSON.parse(stdout)` when stdout
  parses, `none` when parsing throws. -/
  | exit (code : Int) (stdout stderr : String) (parsed : Option (List AstGrepMatch))
deriving Repr, DecidableEq

/-- `runAstGrep`: exit codes 0 and 1 are accepted (1 = no matches),
blank stdout resolves to an empty list, unparseable stdout rejects. -/
def runAstGrep (o : AstGrepOutcome) : Except String (List AstGrepMatch) :=
  match o with
  | .spawnErrorEnoent =>
    .error "ast-grep not found. Install from https://ast-grep.github.io"
  | .spawnErrorOther msg => .error msg
  | .exit code stdout stderr parsed =>
    if code != 0 && code != 1 then
      .error (if stderr != "" then stderr
              else "ast-grep exited with code " ++ toString code)
    else if jsTrim stdout = "" then .ok []
    else
      match parsed with
      | some results => .ok results
      | none => .error ("Failed to parse ast-grep output: " ++ stdout)

/-- One step of the insertion-ordered `Map<string, AstGrepMatch[]>`
grouping. -/
def addToGroup (acc : List (String × List AstGrepMatch)) (m : AstGrepMatch) :
    List (String × List AstGrepMatch) :=
  if acc.any (fun q => q.1 == m.file) then
    acc.map (fun q => if q.1 == m.file then (q.1, q.2 ++ [m]) else q)
  else acc ++ [(m.file, [m])]

/-- Group the matches by file, preserving first-occurrence order. -/
def groupByFile (ms : List AstGrepMatch) : List (String × List AstGrepMatch) :=
  ms.foldl addToGroup []

/-- The markdown written for one match. -/
def matchEntry (showContext : Bool) (m : AstGrepMatch) : String :=
  "**Line " ++ toString m.startPos.line ++ ":" ++ toString m.startPos.column ++ "**\n" ++
  (if showContext then "```\n" ++ jsTrimEnd m.lines ++ "\n```\n"
   else "```\n" ++ m.text ++ "\n```\n") ++
  (if m.metaVariables.length > 0 then
     "Captures: " ++ String.intercalate ", "
       (m.metaVariables.map (fun p => p.1 ++ "=`" ++ p.2 ++ "`")) ++ "\n"
   else "") ++
  "\n"

/-- The markdown written for one file group. -/
def fileSection (showContext : Bool) (g : String × List AstGrepMatch) : String :=
  "### " ++ g.1 ++ "\n\n" ++ String.join (g.2.map (matchEntry showContext))

/-- `formatResults` of the ast-grep extension. -/
def formatResults (ms : List AstGrepMatch) (showContext : Bool) : String :=
  if ms.length = 0 then "No matches found."
  else
    let byFile := groupByFile ms
    jsTrim ("Found " ++ toString ms.length ++ " match(es) in " ++
      toString byFile.length ++ " file(s):\n\n" ++
      String.join (byFile.map (fileSection showContext)))

/-- The `ast_grep` execute: run, truncate to `limit ?? 50` client-side,
format; the whole body sits in a try/catch, so every outcome yields
`.ok`. -/
def astGrepExecute (p : Params) (o : AstGrepOutcome) : Except String ToolResult :=
  match runAstGrep o with
  | .error msg =>
    .ok { content := ["ast-grep search failed: " ++ msg], isError := true }
  | .ok ms =>
    let limit := p.limit.getD 50
    let ms := if ms.length > limit then ms.take limit else ms
    .ok { content := [formatResults ms (p.context.getD false)], isError := false }

end AstGrep

/-! ## Theorems -/

open Recorder

/-- Exactly one session row with the upserted id after an
`INSERT OR REPLACE`. -/
theorem filter_insertOrReplaceSession (db : Db) (r : SessionRow) (S : String)
    (hid : r.id = S) :
    (insertOrReplaceSession db r).sessions.filter (fun s => s.id == S) = [r] := by
  subst hid
  unfold insertOrReplaceSession
  rw [List.filter_append]
  have h1 : (db.sessions.filter (fun s => s.id != r.id)).filter
      (fun s => s.id == r.id) = [] := by
    rw [List.filter_filter, List.filter_eq_nil_iff]
    intro a _
    cases h : a.id == r.id <;> simp [bne, h]
  rw [h1]
  simp

/-- The session_start handler rewrites the store by an upsert of the
fresh session row. -/
theorem handleSessionStart_db (st : RecorderState) (S : String) (f : Option String)
    (c : String) (mp mi : Option String) (t : Nat) :
    (handleSessionStart st S f c mp mi t).db = insertOrReplaceSession st.db
      { id := S, sessionFile := f, cwd := c, startedAt := t, endedAt := none,
        modelProvider := mp, modelId := mi,
        totalInputTokens := 0, totalOutputTokens := 0, totalCost := 0 } := rfl

/-- Claim C3: content strictly longer than the 50 KB cap is stored as
exactly the first `50 * 1024` characters followed by the fixed marker
(so its length is exactly cap plus marker length, never more), and
content at or under the cap is stored unmodified. -/
theorem claim_C3_truncation (s : List Char) :
    (MAX_RESULT_SIZE < s.length →
      truncateContent s = s.take MAX_RESULT_SIZE ++ truncationMarker ∧
      (truncateContent s).length = MAX_RESULT_SIZE + truncationMarker.length) ∧
    (s.length ≤ MAX_RESULT_SIZE → truncateContent s = s) := by
  constructor
  · intro h
    have hgt : s.length > MAX_RESULT_SIZE := h
    refine ⟨by simp [truncateContent, hgt], ?_⟩
    simp only [truncateContent, if_pos hgt, List.length_append, List.length_take]
    omega
  · intro h
    simp only [truncateContent]
    rw [if_neg (by omega)]

/-- Witness for C3 at a concrete 51201-character content. -/
theorem claim_C3_truncation_witness :
    truncateContent (List.replicate 51201 'a') =
      (List.replicate 51201 'a').take MAX_RESULT_SIZE ++ truncationMarker ∧
    (truncateContent (List.replicate 51201 'a')).length =
      MAX_RESULT_SIZE + truncationMarker.length :=
  (claim_C3_truncation (List.replicate 51201 'a')).1
    (by rw [List.length_replicate]; decide)

/-- Claim C7: replaying a session-start event with the same session
identifier replaces the existing session row: after processing session
start twice with identifier `S` (from any prior recorder state),
exactly one `sessions` row with id `S` exists. -/
theorem claim_C7_session_start_upsert (st : RecorderState) (S : String)
    (f1 f2 : Option String) (c1 c2 : String) (mp1 mi1 mp2 mi2 : Option String)
    (t1 t2 : Nat) :
    ((processEvents st
        [Event.sessionStart S f1 c1 mp1 mi1 t1,
         Event.sessionStart S f2 c2 mp2 mi2 t2]).db.sessions.filter
      (fun r => r.id == S)).length = 1 := by
  show ((handleSessionStart (handleSessionStart st S f1 c1 mp1 mi1 t1)
      S f2 c2 mp2 mi2 t2).db.sessions.filter (fun r => r.id == S)).length = 1
  rw [handleSessionStart_db, filter_insertOrReplaceSession _ _ S rfl]
  rfl

/-- Claim C8: `fetch_url` returns the raw body as a non-error result on
a 2xx status, and a non-fatal structured error result carrying the
numeric status and status text on any other completed response. -/
theorem claim_C8_fetch_url_status (st : Nat) (stx body : String) :
    (Jina.responseOk st = true →
      Jina.fetchUrlExecute (.success st stx body) =
        .ok { content := [body], isError := false }) ∧
    (Jina.responseOk st = false →
      Jina.fetchUrlExecute (.success st stx body) =
        .ok { content := ["Failed to fetch: " ++ toString st ++ " " ++ stx],
              isError := true }) := by
  constructor <;> intro h <;> simp [Jina.fetchUrlExecute, h]

/-- Witness for C8 at status 200 and at status 404. -/
theorem claim_C8_fetch_url_status_witness :
    Jina.fetchUrlExecute (.success 200 "OK" "body") =
      .ok { content := ["body"], isError := false } ∧
    Jina.fetchUrlExecute (.success 404 "Not Found" "nope") =
      .ok { content := ["Failed to fetch: " ++ toString 404 ++ " " ++ "Not Found"],
            isError := true } :=
  ⟨(claim_C8_fetch_url_status 200 "OK" "body").1 (by rfl),
   (claim_C8_fetch_url_status 404 "Not Found" "nope").2 (by rfl)⟩

/-- Counterexample to C9 as stated: a `0` ms timeout is falsy under the
source's `if (timeout)` guard, so no timer is armed even though `0` is
strictly shorter than the child's 10 ms completion time; the call
resolves normally via the close branch and the child is not killed —
no timeout error, no termination. -/
theorem claim_C9_counterexample :
    (0 : Nat) < (⟨10, 0, "out", ""⟩ : Pexpect.ChildRun).closeTime ∧
    (Pexpect.execInSession (some 0) ⟨10, 0, "out", ""⟩).result = .ok "out" ∧
    (Pexpect.execInSession (some 0) ⟨10, 0, "out", ""⟩).killedChild = false :=
  ⟨by decide, rfl, rfl⟩

/-- Claim C9 (amended): a session-exec timeout that is truthy (nonzero)
and strictly shorter than the child's completion time rejects with the
timeout-naming error message and kills the subprocess (SIGTERM,
modelled as terminating it); a zero timeout never arms the timer and
the call completes via the close branch. -/
theorem claim_C9_exec_timeout (t : Nat) (run : Pexpect.ChildRun)
    (ht : t ≠ 0) (h : t < run.closeTime) :
    (Pexpect.execInSession (some t) run).result =
      .error ("Execution timed out after " ++ toString t ++ "ms") ∧
    (Pexpect.execInSession (some t) run).killedChild = true := by
  constructor <;> simp [Pexpect.execInSession, ht, h]

/-- Witness for C9: a 5 ms timeout against a child that would close at
10 ms. -/
theorem claim_C9_exec_timeout_witness :
    (Pexpect.execInSession (some 5) ⟨10, 0, "out", ""⟩).result =
      .error ("Execution timed out after " ++ toString 5 ++ "ms") ∧
    (Pexpect.execInSession (some 5) ⟨10, 0, "out", ""⟩).killedChild = true :=
  claim_C9_exec_timeout 5 ⟨10, 0, "out", ""⟩ (by decide) (by decide)

/-- Claim C10: the `--limit` value passed to the spawned `gh`
subprocess is `min(limit, 100)` for a supplied `limit`, `10` when no
limit is supplied, and never exceeds 100. -/
theorem claim_C10_gh_limit (p : Github.Params) :
    (∃ pre, Github.ghSpawnArgs p =
        pre ++ ["--limit", toString (min (p.limit.getD 10) 100)] ++
          ["--json", "path,repository,sha,url,textMatches"]) ∧
    min (p.limit.getD 10) 100 ≤ 100 ∧
    (p.limit = none → min (p.limit.getD 10) 100 = 10) := by
  refine ⟨?_, min_le_right _ _, ?_⟩
  · obtain ⟨A, hA⟩ : ∃ A, Github.buildGhArgs p =
        A ++ ["--limit", toString (min (p.limit.getD 10) 100)] := ⟨_, rfl⟩
    exact ⟨["search", "code"] ++ A, by simp [Github.ghSpawnArgs, hA]⟩
  · intro h
    rw [h]
    norm_num

/-- The handler guard holds as soon as the store is open and a
non-empty session id is current. -/
theorem activeSession_eq (st : RecorderState) (S : String) (h1 : st.dbOpen = true)
    (h2 : st.sessionId = some S) (h3 : S ≠ "") : activeSession st = some S := by
  simp [activeSession, h1, h2, h3]

/-- Tool-call correlation events leave the sessions and turns tables,
the autoincrement counter and the session/turn correlation state
untouched. -/
theorem processEvent_tool_preserves (st : RecorderState) (e : Event) (he : ToolEv e) :
    (processEvent st e).db.sessions = st.db.sessions ∧
    (processEvent st e).db.turns = st.db.turns ∧
    (processEvent st e).db.nextTurnRowId = st.db.nextTurnRowId ∧
    (processEvent st e).dbOpen = st.dbOpen ∧
    (processEvent st e).sessionId = st.sessionId ∧
    (processEvent st e).currentTurnId = st.currentTurnId := by
  cases he with
  | call cid name ij now =>
    simp only [processEvent, handleToolCall]
    rcases hA : activeSession st with _ | sid <;> simp only [hA]
    · simp
    · by_cases hc : (st.db.toolCalls.any (fun t => t.id == cid)) = true <;> simp [hc]
  | result cid isErr content now =>
    simp only [processEvent, handleToolResult]
    rcases hA : activeSession st with _ | sid <;> simp only [hA]
    · simp
    · simp

theorem processEvents_cons (st : RecorderState) (e : Event) (evs : List Event) :
    processEvents st (e :: evs) = processEvents (processEvent st e) evs := rfl

theorem processEvents_append (st : RecorderState) (l1 l2 : List Event) :
    processEvents st (l1 ++ l2) = processEvents (processEvents st l1) l2 := by
  simp [processEvents, List.foldl_append]

/-- `processEvent_tool_preserves`, extended to a run of tool events. -/
theorem processEvents_tools_preserve (st : RecorderState) (mid : List Event)
    (h : ∀ e ∈ mid, ToolEv e) :
    (processEvents st mid).db.sessions = st.db.sessions ∧
    (processEvents st mid).db.turns = st.db.turns ∧
    (processEvents st mid).db.nextTurnRowId = st.db.nextTurnRowId ∧
    (processEvents st mid).dbOpen = st.dbOpen ∧
    (processEvents st mid).sessionId = st.sessionId ∧
    (processEvents st mid).currentTurnId = st.currentTurnId := by
  induction mid generalizing st with
  | nil => exact ⟨rfl, rfl, rfl, rfl, rfl, rfl⟩
  | cons e rest ih =>
    have h1 := processEvent_tool_preserves st e (h e (by simp))
    have h2 := ih (processEvent st e) (fun e' he' => h e' (by simp [he']))
    rw [processEvents_cons]
    exact ⟨h2.1.trans h1.1, h2.2.1.trans h1.2.1, h2.2.2.1.trans h1.2.2.1,
      h2.2.2.2.1.trans h1.2.2.2.1, h2.2.2.2.2.1.trans h1.2.2.2.2.1,
      h2.2.2.2.2.2.trans h1.2.2.2.2.2⟩

/-- A map that fixes every element of a list is the identity on it. -/
theorem list_map_id_of {α : Type} (l : List α) (f : α → α) (h : ∀ a ∈ l, f a = a) :
    l.map f = l := by
  induction l with
  | nil => rfl
  | cons a as ih =>
    rw [List.map_cons, h a (by simp), ih (fun x hx => h x (by simp [hx]))]

/-- The invariant only depends on the preserved components. -/
theorem Inv_transfer (S : String) (k : Nat) (st st' : RecorderState)
    (h1 : st'.db.sessions = st.db.sessions) (h2 : st'.db.turns = st.db.turns)
    (h3 : st'.db.nextTurnRowId = st.db.nextTurnRowId) (h4 : st'.dbOpen = st.dbOpen)
    (h5 : st'.sessionId = st.sessionId) (hinv : Inv S k st) : Inv S k st' := by
  obtain ⟨hopen, hsid, hS, hlen, hids, hnext, r, hsess, hrest⟩ := hinv
  refine ⟨h4.trans hopen, h5.trans hsid, hS, by rw [h2]; exact hlen, ?_, ?_,
    r, by rw [h1]; exact hsess, ?_⟩
  · intro t ht
    rw [h2] at ht
    rw [h3]
    exact hids t ht
  · rw [h3]; exact hnext
  · rw [h2]
    exact hrest

/-- What turn_start does when the guard passes. -/
theorem handleTurnStart_eq (st : RecorderState) (S : String) (ti ts : Nat)
    (hA : activeSession st = some S) :
    handleTurnStart st ti ts = { st with
      currentTurnStartedAt := ts,
      currentTurnId := some st.db.nextTurnRowId,
      db := { st.db with
        turns := st.db.turns ++
          [{ id := st.db.nextTurnRowId, sessionId := S, turnIndex := ti,
             startedAt := ts, endedAt := none, durationMs := none,
             modelProvider := none, modelId := none,
             inputTokens := 0, outputTokens := 0, cost := 0, stopReason := none }],
        nextTurnRowId := st.db.nextTurnRowId + 1 } } := by
  simp only [handleTurnStart, hA]

/-- What turn_end does, componentwise, when both guards pass: the turn
row with the current id is closed and filled with the usage, the
session row with the current id gets the usage added to its totals,
and the autoincrement counter and correlation guards are unchanged. -/
theorem handleTurnEnd_spec (st : RecorderState) (S : String) (tid : Nat)
    (msg : AssistantMsg) (now : Nat)
    (hA : activeSession st = some S) (hcur : currentTurn st = some tid) :
    (handleTurnEnd st msg now).db.turns = st.db.turns.map (fun t =>
      if t.id == tid then
        { t with endedAt := some now,
                 durationMs := some ((now : Int) - (st.currentTurnStartedAt : Int)),
                 modelProvider := msg.provider, modelId := msg.model,
                 inputTokens := (msg.usage.bind Usage.input).getD 0,
                 outputTokens := (msg.usage.bind Usage.output).getD 0,
                 cost := ((msg.usage.bind Usage.cost).bind CostObj.total).getD 0,
                 stopReason := msg.stopReason }
      else t) ∧
    (handleTurnEnd st msg now).db.sessions = st.db.sessions.map (fun r =>
      if r.id == S then
        { r with totalInputTokens :=
                   r.totalInputTokens + (msg.usage.bind Usage.input).getD 0,
                 totalOutputTokens :=
                   r.totalOutputTokens + (msg.usage.bind Usage.output).getD 0,
                 totalCost :=
                   r.totalCost + ((msg.usage.bind Usage.cost).bind CostObj.total).getD 0 }
      else r) ∧
    (handleTurnEnd st msg now).db.nextTurnRowId = st.db.nextTurnRowId ∧
    (handleTurnEnd st msg now).dbOpen = st.dbOpen ∧
    (handleTurnEnd st msg now).sessionId = st.sessionId ∧
    (handleTurnEnd st msg now).currentTurnId = st.currentTurnId := by
  simp only [handleTurnEnd, hA, hcur, updateTurnEnd, addSessionTotals]
  cases hc : msg.content with
  | none => refine ⟨?_, ?_, ?_, ?_, ?_, ?_⟩ <;> trivial
  | some content =>
    dsimp only
    split <;> (refine ⟨?_, ?_, ?_, ?_, ?_, ?_⟩ <;> trivial)

/-- A completed turn pair (with tool events inside) advances the
invariant by one turn. -/
theorem turn_pair_inv (S : String) (k : Nat) (st : RecorderState) (hinv : Inv S k st)
    (ti ts : Nat) (mid : List Event) (hmid : ∀ e ∈ mid, ToolEv e)
    (msg : AssistantMsg) (now : Nat) :
    Inv S (k + 1)
      (processEvent (processEvents (processEvent st (.turnStart ti ts)) mid)
        (.turnEnd msg now)) := by
  obtain ⟨hopen, hsid, hS, hlen, hids, hnext, r, hsess, hrid, hin, hout, hcost⟩ := hinv
  have hA : activeSession st = some S := activeSession_eq st S hopen hsid hS
  have h1 : processEvent st (.turnStart ti ts) = handleTurnStart st ti ts := rfl
  rw [h1, handleTurnStart_eq st S ti ts hA]
  set row0 : TurnRow :=
    { id := st.db.nextTurnRowId, sessionId := S, turnIndex := ti,
      startedAt := ts, endedAt := none, durationMs := none,
      modelProvider := none, modelId := none,
      inputTokens := 0, outputTokens := 0, cost := 0, stopReason := none } with hrow0
  set st1 : RecorderState := { st with
    currentTurnStartedAt := ts,
    currentTurnId := some st.db.nextTurnRowId,
    db := { st.db with
      turns := st.db.turns ++ [row0],
      nextTurnRowId := st.db.nextTurnRowId + 1 } } with hst1
  have hp := processEvents_tools_preserve st1 mid hmid
  set st2 := processEvents st1 mid with hst2
  have hA2 : activeSession st2 = some S := by
    apply activeSession_eq
    · rw [hp.2.2.2.1]; exact hopen
    · rw [hp.2.2.2.2.1]; exact hsid
    · exact hS
  have hcur2 : currentTurn st2 = some st.db.nextTurnRowId := by
    have hco : st2.currentTurnId = some st.db.nextTurnRowId := hp.2.2.2.2.2
    unfold currentTurn
    rw [hco]
    have hne : (st.db.nextTurnRowId == 0) = false := by
      simp only [beq_eq_false_iff_ne, ne_eq]
      omega
    simp [hne]
  have h2 : processEvent st2 (.turnEnd msg now) = handleTurnEnd st2 msg now := rfl
  rw [h2]
  have hspec := handleTurnEnd_spec st2 S st.db.nextTurnRowId msg now hA2 hcur2
  have hturns2 : st2.db.turns = st.db.turns ++ [row0] := hp.2.1
  have hsess2 : st2.db.sessions = [r] := by rw [hp.1, hsess]
  have hnext2 : st2.db.nextTurnRowId = st.db.nextTurnRowId + 1 := hp.2.2.1
  -- the closed turn row
  set it := (msg.usage.bind Usage.input).getD 0 with hit
  set ot := (msg.usage.bind Usage.output).getD 0 with hot
  set cst := ((msg.usage.bind Usage.cost).bind CostObj.total).getD 0 with hcst
  have hturns3 : (handleTurnEnd st2 msg now).db.turns =
      st.db.turns ++ [{ row0 with
        endedAt := some now,
        durationMs := some ((now : Int) - (st2.currentTurnStartedAt : Int)),
        modelProvider := msg.provider, modelId := msg.model,
        inputTokens := it, outputTokens := ot, cost := cst,
        stopReason := msg.stopReason }] := by
    rw [hspec.1, hturns2, List.map_append]
    congr 1
    · apply list_map_id_of
      intro t ht
      have : t.id ≠ st.db.nextTurnRowId := Nat.ne_of_lt (hids t ht)
      simp only [beq_eq_false_iff_ne.mpr this]
      simp
    · simp
  have hsess3 : (handleTurnEnd st2 msg now).db.sessions =
      [{ r with
          totalInputTokens := r.totalInputTokens + it,
          totalOutputTokens := r.totalOutputTokens + ot,
          totalCost := r.totalCost + cst }] := by
    rw [hspec.2.1, hsess2, List.map_singleton]
    rw [show (r.id == S) = true from beq_iff_eq.mpr hrid]
    simp
  refine ⟨?_, ?_, hS, ?_, ?_, ?_, ?_⟩
  · rw [hspec.2.2.2.1, hp.2.2.2.1]; exact hopen
  · rw [hspec.2.2.2.2.1, hp.2.2.2.2.1]; exact hsid
  · rw [hturns3]
    simp [hlen]
  · intro t ht
    rw [hturns3] at ht
    rw [hspec.2.2.1, hnext2]
    rcases List.mem_append.mp ht with h | h
    · exact Nat.lt_succ_of_lt (hids t h)
    · simp only [List.mem_singleton] at h
      subst h
      simp
  · rw [hspec.2.2.1, hnext2]
    omega
  · refine ⟨_, hsess3, hrid, ?_, ?_, ?_⟩
    · rw [hturns3]
      simp only [sumInput, List.map_append, List.sum_append, hin]
      simp
    · rw [hturns3]
      simp only [sumOutput, List.map_append, List.sum_append, hout]
      simp
    · rw [hturns3]
      simp only [sumCost, List.map_append, List.sum_append, hcost]
      simp

/-- The invariant is preserved across any completed-turns/tool-events
sequence, the turn count advancing by the number of turn pairs. -/
theorem inv_processEvents (S : String) (evs : List Event) (n : Nat)
    (hseq : TurnToolSeq evs n) :
    ∀ (k : Nat) (st : RecorderState), Inv S k st → Inv S (k + n) (processEvents st evs) := by
  induction hseq with
  | nil =>
    intro k st h
    simpa using h
  | tool e evs' n' hte hseq' ih =>
    intro k st h
    rw [processEvents_cons]
    apply ih
    have hp := processEvent_tool_preserves st e hte
    exact Inv_transfer S k st (processEvent st e) hp.1 hp.2.1 hp.2.2.1
      hp.2.2.2.1 hp.2.2.2.2.1 h
  | turn ti ts msg now mid evs' n' hmid hseq' ih =>
    intro k st h
    rw [processEvents_cons, processEvents_append, processEvents_cons]
    have hpair := turn_pair_inv S k st h ti ts mid hmid msg now
    have hrest := ih (k + 1) _ hpair
    have harith : k + (n' + 1) = (k + 1) + n' := by omega
    rw [harith]
    exact hrest

/-- Claim C1: starting from a fresh store, a session start followed by
`N` completed turn start/end pairs with arbitrarily interleaved
tool-call start/end events leaves exactly one session row, whose
running totals (`total_input_tokens`, `total_output_tokens`,
`total_cost`) equal the sums of the corresponding usage columns over
the `N` persisted turn rows. -/
theorem claim_C1_session_totals (S : String) (file : Option String) (cwd : String)
    (mp mi : Option String) (now : Nat) (evs : List Event) (N : Nat)
    (hS : S ≠ "") (hseq : TurnToolSeq evs N) :
    (processEvents (initState Db.empty)
        (Event.sessionStart S file cwd mp mi now :: evs)).db.turns.length = N ∧
    (processEvents (initState Db.empty)
        (Event.sessionStart S file cwd mp mi now :: evs)).db.sessions.map
      (fun r => (r.id, r.totalInputTokens, r.totalOutputTokens, r.totalCost)) =
      [(S,
        sumInput (processEvents (initState Db.empty)
          (Event.sessionStart S file cwd mp mi now :: evs)).db.turns,
        sumOutput (processEvents (initState Db.empty)
          (Event.sessionStart S file cwd mp mi now :: evs)).db.turns,
        sumCost (processEvents (initState Db.empty)
          (Event.sessionStart S file cwd mp mi now :: evs)).db.turns)] := by
  have h0 : Inv S 0 (processEvent (initState Db.empty)
      (Event.sessionStart S file cwd mp mi now)) := by
    refine ⟨rfl, rfl, hS, rfl, ?_, ?_, ?_⟩
    · intro t ht
      simp [processEvent, handleSessionStart, insertOrReplaceSession, initState,
        Db.empty] at ht
    · exact Nat.le_refl 1
    · exact ⟨_, rfl, rfl, rfl, rfl, rfl⟩
  have hfin := inv_processEvents S evs N hseq 0 _ h0
  rw [processEvents_cons]
  obtain ⟨_, _, _, hlen, _, _, r, hsess, hrid, hin, hout, hcost⟩ := hfin
  refine ⟨by simpa using hlen, ?_⟩
  rw [hsess, List.map_singleton, hrid, hin, hout, hcost]

/-- Witness for C1: one completed turn (3 input tokens, 5 output
tokens, cost 2) with one completed tool-call pair inside it. -/
theorem claim_C1_session_totals_witness :
    (processEvents (initState Db.empty)
        (Event.sessionStart "s" none "/w" none none 0 ::
          [Event.turnStart 0 1, Event.toolCall "c" "bash" "null" 2,
           Event.toolResult "c" false [] 3,
           Event.turnEnd ⟨some "p", some "m", none,
             some ⟨some 3, some 5, some ⟨some 2⟩⟩, some "end_turn"⟩ 4])).db.turns.length
      = 1 ∧
    (processEvents (initState Db.empty)
        (Event.sessionStart "s" none "/w" none none 0 ::
          [Event.turnStart 0 1, Event.toolCall "c" "bash" "null" 2,
           Event.toolResult "c" false [] 3,
           Event.turnEnd ⟨some "p", some "m", none,
             some ⟨some 3, some 5, some ⟨some 2⟩⟩, some "end_turn"⟩ 4])).db.sessions.map
      (fun r => (r.id, r.totalInputTokens, r.totalOutputTokens, r.totalCost)) =
      [("s",
        sumInput (processEvents (initState Db.empty)
          (Event.sessionStart "s" none "/w" none none 0 ::
            [Event.turnStart 0 1, Event.toolCall "c" "bash" "null" 2,
             Event.toolResult "c" false [] 3,
             Event.turnEnd ⟨some "p", some "m", none,
               some ⟨some 3, some 5, some ⟨some 2⟩⟩, some "end_turn"⟩ 4])).db.turns,
        sumOutput (processEvents (initState Db.empty)
          (Event.sessionStart "s" none "/w" none none 0 ::
            [Event.turnStart 0 1, Event.toolCall "c" "bash" "null" 2,
             Event.toolResult "c" false [] 3,
             Event.turnEnd ⟨some "p", some "m", none,
               some ⟨some 3, some 5, some ⟨some 2⟩⟩, some "end_turn"⟩ 4])).db.turns,
        sumCost (processEvents (initState Db.empty)
          (Event.sessionStart "s" none "/w" none none 0 ::
            [Event.turnStart 0 1, Event.toolCall "c" "bash" "null" 2,
             Event.toolResult "c" false [] 3,
             Event.turnEnd ⟨some "p", some "m", none,
               some ⟨some 3, some 5, some ⟨some 2⟩⟩, some "end_turn"⟩ 4])).db.turns)] :=
  claim_C1_session_totals "s" none "/w" none none 0
    [Event.turnStart 0 1, Event.toolCall "c" "bash" "null" 2,
     Event.toolResult "c" false [] 3,
     Event.turnEnd ⟨some "p", some "m", none,
       some ⟨some 3, some 5, some ⟨some 2⟩⟩, some "end_turn"⟩ 4] 1
    (by decide)
    (TurnToolSeq.turn 0 1
      ⟨some "p", some "m", none, some ⟨some 3, some 5, some ⟨some 2⟩⟩, some "end_turn"⟩ 4
      [Event.toolCall "c" "bash" "null" 2, Event.toolResult "c" false [] 3] [] 0
      (by
        intro e he
        rcases List.mem_cons.mp he with rfl | he2
        · exact ToolEv.call _ _ _ _
        rcases List.mem_cons.mp he2 with rfl | he3
        · exact ToolEv.result _ _ _ _
        exact absurd he3 (List.not_mem_nil _))
      TurnToolSeq.nil)

/-- The tool_result handler closes the tool-call rows with the event's
call id. -/
theorem handleToolResult_toolCalls (st : RecorderState) (S : String) (cid : String)
    (isErr : Bool) (content : List ContentItem) (now : Nat)
    (hA : activeSession st = some S) :
    (handleToolResult st cid isErr content now).db.toolCalls =
      st.db.toolCalls.map (fun t =>
        if t.id == cid then
          { t with endedAt := some now,
                   durationMs := some ((now : Int) -
                     (((st.toolCallStarts.lookup cid).getD now : Nat) : Int)),
                   isError := isErr,
                   resultText := some (extractTextContent content) }
        else t) := by
  simp only [handleToolResult, hA]

/-- Claim C2: once the matching end event is processed, the row whose
start fields were populated at the matching start event has its end
timestamp filled in: a turn-end event for the open current turn closes
every turn row carrying the current turn id, and a tool-result event
closes every tool-call row carrying the event's call id; no such row is
left with only its start fields populated. -/
theorem claim_C2_end_events_close_rows (st : RecorderState) (S : String) (tid : Nat)
    (msg : AssistantMsg) (now : Nat) (cid : String) (isErr : Bool)
    (content : List ContentItem) (now2 : Nat)
    (hA : activeSession st = some S) :
    (currentTurn st = some tid →
      ∀ t ∈ (processEvent st (.turnEnd msg now)).db.turns, t.id = tid →
        t.endedAt.isSome = true) ∧
    (∀ c ∈ (processEvent st (.toolResult cid isErr content now2)).db.toolCalls,
      c.id = cid → c.endedAt.isSome = true) := by
  constructor
  · intro hcur t ht htid
    have hspec := handleTurnEnd_spec st S tid msg now hA hcur
    rw [show processEvent st (.turnEnd msg now) = handleTurnEnd st msg now from rfl,
      hspec.1] at ht
    obtain ⟨t0, ht0, rfl⟩ := List.mem_map.mp ht
    by_cases h0 : (t0.id == tid) = true
    · simp [h0]
    · rw [if_neg (by simp [h0])] at htid ⊢
      exact absurd (beq_iff_eq.mpr htid) (by simp [h0])
  · intro c hc hcid
    rw [show processEvent st (.toolResult cid isErr content now2) =
        handleToolResult st cid isErr content now2 from rfl,
      handleToolResult_toolCalls st S cid isErr content now2 hA] at hc
    obtain ⟨c0, hc0, rfl⟩ := List.mem_map.mp hc
    by_cases h0 : (c0.id == cid) = true
    · simp [h0]
    · rw [if_neg (by simp [h0])] at hcid ⊢
      exact absurd (beq_iff_eq.mpr hcid) (by simp [h0])

/-- Witness for C2: a state with one open turn row (id 1) and one open
tool-call row (id "c"); the closed rows after the respective end
events. -/
theorem claim_C2_end_events_close_rows_witness :
    (⟨1, "s", 0, 5, some 7, some 2, none, none, 0, 0, 0, none⟩ :
      TurnRow).endedAt.isSome = true ∧
    (⟨"c", "s", some 1, "bash", "null", 6, some 9, some 3, false, some []⟩ :
      ToolCallRow).endedAt.isSome = true := by
  have h := claim_C2_end_events_close_rows
    ⟨⟨[⟨"s", none, "/w", 0, none, none, none, 0, 0, 0⟩],
      [⟨1, "s", 0, 5, none, none, none, none, 0, 0, 0, none⟩],
      [⟨"c", "s", some 1, "bash", "null", 6, none, none, false, none⟩],
      [], [], 2⟩,
     true, some "s", some 1, 5, [("c", 6)]⟩
    "s" 1 ⟨none, none, none, none, none⟩ 7 "c" false [] 9 (by rfl)
  exact ⟨h.1 (by rfl) _ (by decide) rfl, h.2 _ (by decide) rfl⟩

/-- Counterexample to C4 as stated: `fetch_url` has no try/catch, so a
network-level failure of `fetch` (a rejected promise, e.g. a DNS error)
propagates uncaught across the public execute boundary instead of being
returned as a structured error result. -/
theorem claim_C4_counterexample :
    Jina.fetchUrlExecute (.networkError "fetch failed") =
      Except.error "fetch failed" ∧
    (Jina.fetchUrlExecute (.networkError "fetch failed")).isOk = false :=
  ⟨rfl, rfl⟩

/-- Claim C4 (amended): `kagi_search`, `github_search_code`, `ast_grep`
and the four `pexpect_*` operations wrap their whole bodies in
try/catch and return every failure as a structured error result, never
throwing across the public execute boundary; `fetch_url` returns a
structured result for every completed HTTP response (including error
statuses) but propagates network-level exceptions uncaught. -/
theorem claim_C4_amended_no_uncaught_throws :
    (∀ o : Kagi.KagiOutcome, (Kagi.kagiSearchExecute o).isOk = true) ∧
    (∀ (p : Github.Params) (o : Github.GhOutcome),
      (Github.githubSearchExecute p o).isOk = true) ∧
    (∀ (p : AstGrep.Params) (o : AstGrep.AstGrepOutcome),
      (AstGrep.astGrepExecute p o).isOk = true) ∧
    (∀ (n : Option String) (o : Pexpect.StartOutcome),
      (Pexpect.pexpectStartExecute n o).isOk = true) ∧
    (∀ (sid : String) (o : Pexpect.ExecOutcome),
      (Pexpect.pexpectExecExecute sid o).isOk = true) ∧
    (∀ (sid : String) (o : Pexpect.StopOutcome),
      (Pexpect.pexpectStopExecute sid o).isOk = true) ∧
    (∀ o : Pexpect.ListOutcome, (Pexpect.pexpectListExecute o).isOk = true) ∧
    (∀ (st : Nat) (stx body : String),
      (Jina.fetchUrlExecute (.success st stx body)).isOk = true) := by
  refine ⟨?_, ?_, ?_, ?_, ?_, ?_, ?_, ?_⟩
  · intro o
    cases o <;> rfl
  · intro p o
    unfold Github.githubSearchExecute
    cases Github.runGhSearch o with
    | ok results => rfl
    | error msg =>
      dsimp only
      split
      · rfl
      · split <;> rfl
  · intro p o
    unfold AstGrep.astGrepExecute
    cases AstGrep.runAstGrep o <;> rfl
  · intro n o
    cases o <;> rfl
  · intro sid o
    cases o with
    | pueueDown => rfl
    | listError m => rfl
    | listed lo er =>
      unfold Pexpect.pexpectExecExecute
      dsimp only
      split
      · rfl
      · cases er <;> rfl
  · intro sid o
    cases o with
    | pueueDown => rfl
    | listError m => rfl
    | listed lo sr =>
      unfold Pexpect.pexpectStopExecute
      dsimp only
      split
      · rfl
      · cases sr <;> rfl
  · intro o
    cases o with
    | pueueDown => rfl
    | listError m => rfl
    | listed lo =>
      unfold Pexpect.pexpectListExecute
      dsimp only
      split <;> rfl
  · intro st stx body
    unfold Jina.fetchUrlExecute
    dsimp only
    split <;> rfl

/-- The cookie jar an `.ok` authenticate always leaves behind. -/
theorem authenticate_ok_cookies (cl cl' : Kagi.KagiClient) (resp : Kagi.AuthResponse)
    (h : Kagi.authenticate cl resp = .ok cl') :
    cl'.cookies = Kagi.captureCookies resp.setCookies := by
  by_cases hs : (300 ≤ resp.status && resp.status < 400) = true
  · rcases hloc : resp.location with _ | loc
    · simp only [Kagi.authenticate, hs, hloc, if_true] at h
      simp only [Except.ok.injEq] at h
      subst h
      rfl
    · by_cases hinc : (jsIncludes loc "/signin" || jsIncludes loc "/welcome") = true
      · simp only [Kagi.authenticate, hs, hloc, hinc, if_true] at h
        simp at h
      · simp only [Kagi.authenticate, hs, hloc, if_true] at h
        rw [if_neg (by simp_all)] at h
        simp only [Except.ok.injEq] at h
        subst h
        rfl
  · simp only [Kagi.authenticate, if_neg hs] at h
    simp only [Except.ok.injEq] at h
    subst h
    rfl

/-- Claim C5: after a successful authenticate, a subsequent search
request's Cookie header is exactly the cookie values captured from the
authenticate response's set-cookie headers, joined with `"; "` in
capture order. -/
theorem claim_C5_cookie_propagation (cl cl' : Kagi.KagiClient)
    (resp : Kagi.AuthResponse) (q : String)
    (h : Kagi.authenticate cl resp = .ok cl') :
    (Kagi.searchRequest cl' q).cookie =
      String.intercalate "; " (Kagi.captureCookies resp.setCookies) := by
  rw [Kagi.searchRequest, authenticate_ok_cookies cl cl' resp h]

/-- Witness for C5: a 200 authenticate response with two set-cookie
headers. -/
theorem claim_C5_cookie_propagation_witness :
    (Kagi.searchRequest ⟨["a=1", "kagi_session=tok"], "tok"⟩ "q").cookie =
      String.intercalate "; "
        (Kagi.captureCookies ["a=1; Path=/", "kagi_session=tok; HttpOnly"]) :=
  claim_C5_cookie_propagation Kagi.KagiClient.init
    ⟨["a=1", "kagi_session=tok"], "tok"⟩
    ⟨200, ["a=1; Path=/", "kagi_session=tok; HttpOnly"], none⟩ "q" (by rfl)

/-- The result loop collects, in order and up to the limit, exactly the
blocks the loop body accepts. -/
theorem searchLoop_spec (limit : Nat) (blocks : List Kagi.Block)
    (acc : List Kagi.SearchResult) :
    Kagi.searchLoop limit blocks acc =
      acc ++ (blocks.filterMap Kagi.blockStep).take (limit - acc.length) := by
  induction blocks generalizing acc with
  | nil => simp [Kagi.searchLoop]
  | cons b rest ih =>
    unfold Kagi.searchLoop
    by_cases hlt : acc.length < limit
    · rw [if_pos hlt]
      cases hb : Kagi.blockStep b with
      | some r =>
        dsimp only
        rw [ih]
        simp only [List.filterMap_cons, hb, List.length_append, List.length_cons,
          List.length_nil, List.append_assoc, List.singleton_append]
        have hsplit : limit - acc.length = (limit - (acc.length + 1)) + 1 := by omega
        rw [hsplit, List.take_succ_cons]
      | none =>
        dsimp only
        rw [ih]
        simp [List.filterMap_cons, hb]
    · rw [if_neg hlt]
      have hz : limit - acc.length = 0 := by omega
      simp [hz]

/-- Claim C6: the parsed result list is the per-block loop-body outcomes
up to the limit; a block with title and URL but no snippet sub-block
yields a result with empty-string snippet; a block missing the title or
the URL sub-block contributes nothing to the returned list. -/
theorem claim_C6_degraded_parse (blocks : List Kagi.Block) (limit : Nat)
    (t u : String) (b : Kagi.Block) :
    Kagi.parseResults blocks limit =
      (blocks.filterMap Kagi.blockStep).take limit ∧
    Kagi.blockStep { title := some t, url := some u, snippet := none } =
      some { title := Kagi.stripTagsTrim t, url := u, snippet := "" } ∧
    (b.title = none ∨ b.url = none → Kagi.blockStep b = none) := by
  refine ⟨?_, rfl, ?_⟩
  · rw [Kagi.parseResults, searchLoop_spec]
    simp
  · intro h
    obtain ⟨bt, bu, bs⟩ := b
    rcases h with h | h
    · simp only at h
      subst h
      rfl
    · simp only at h
      subst h
      cases bt <;> rfl

/-- Witness for C6: a block with a URL and snippet but no title is
dropped. -/
theorem claim_C6_degraded_parse_witness :
    Kagi.blockStep { title := none, url := some "u", snippet := some "s" } = none :=
  (claim_C6_degraded_parse [] 0 "" "" ⟨none, some "u", some "s"⟩).2.2 (Or.inl rfl)

/-- Witness for C10 with no supplied limit. -/
theorem claim_C10_gh_limit_witness :
    (∃ pre, Github.ghSpawnArgs ⟨"q", none, none, none, none, none, none⟩ =
        pre ++ ["--limit",
          toString (min ((⟨"q", none, none, none, none, none, none⟩ :
            Github.Params).limit.getD 10) 100)] ++
          ["--json", "path,repository,sha,url,textMatches"]) ∧
    min ((⟨"q", none, none, none, none, none, none⟩ :
      Github.Params).limit.getD 10) 100 ≤ 100 ∧
    ((⟨"q", none, none, none, none, none, none⟩ : Github.Params).limit = none →
      min ((⟨"q", none, none, none, none, none, none⟩ :
        Github.Params).limit.getD 10) 100 = 10) :=
  claim_C10_gh_limit ⟨"q", none, none, none, none, none, none⟩

end Skillz
